import Mathlib

/-!
# Verification of the neko-rooms room manager

Shallow embedding of `internal/room/manager.go`: the room lifecycle
orchestrator that leases contiguous UDP port ranges to container "rooms",
persists room identity and the lease purely in container labels, and builds
the full container spec (env, port bindings, traefik routing labels).

Container-engine state is modelled as an explicit inventory of containers
plus an event log; engine-transport failures are injected through an
`EngineBehavior` record.  Helpers whose bodies are not part of the sources
(`allocatePorts`, `listContainers`, `inspectContainer`, `getEprFromLabels`,
the settings env round-trip) are modelled from the specification and say so
in their doc comments.
-/

namespace NekoRooms

/-- Constants from `manager.go`. -/
def nekoImage : String := "m1k1o/neko:latest"

/-- The `containerPrefix` constant of `manager.go`. -/
def containerPfx : String := "neko-room-"

def frontendPort : Nat := 8080

def labelCanary : String := "m1k1o-neko-rooms"

/-- An inclusive port range (`types.EprPorts` with `Min`/`Max`). -/
structure PortRange where
  min : Nat
  max : Nat

/-- A container record, merging the fields of the engine's list item and
inspect result that the manager reads (`ID`, `Labels`, `Config.Env`,
`Image`, `State`, `Status`, `Created`). -/
structure Container where
  ID : String
  Labels : List (String × String)
  Env : List String
  Image : String
  State : String
  Status : String
  Created : Int

/-- Room settings (`types.RoomSettings`): user-supplied name (empty means
generate one), requested concurrent-connection capacity, and the open set of
workload options that round-trip through environment variables, modelled as
the list of env entries `ToEnv` would produce. -/
structure RoomSettings where
  Name : String
  MaxConnections : Nat
  envOptions : List String

/-- Modelled from the spec: settings-derived environment entries
(`settings.ToEnv()`), an open set of options that round-trip through
environment variables.  `types.RoomSettings.ToEnv` is not part of the
sources. -/
def RoomSettings.ToEnv (s : RoomSettings) : List String := s.envOptions

/-- Modelled from the spec: `settings.FromEnv(env)` restores the
settings-derived options from the environment (the inverse direction of the
round-trip); it does not touch `Name`/`MaxConnections`, which `Get` decodes
from labels.  `types.RoomSettings.FromEnv` is not part of the sources. -/
def RoomSettings.FromEnv (s : RoomSettings) (env : List String) :
    Except String RoomSettings :=
  .ok { s with envOptions := env }

/-- The listing read-model (`types.RoomEntry`). -/
structure RoomEntry where
  ID : String
  URL : String
  Name : String
  MaxConnections : Nat
  Image : String
  Running : Bool
  Status : String
  Created : Int

/-- Global room configuration (`config.Room`): the traefik routing options
read by `Create` and, modelled from the spec, the global usable port window
for the allocator. -/
structure RoomConfig where
  TraefikDomain : String
  TraefikEntrypoint : String
  TraefikCertresolver : String
  TraefikNetwork : String
  NAT1To1IPs : List String
  EprMin : Nat
  EprMax : Nat

/-! ## Decimal formatting and parsing

`fmt.Sprintf("%d", n)` and the numeric-label parse used by
`getEprFromLabels` are modelled by an explicit base-10 codec. -/

/-- The character of a decimal digit (`0 ≤ d ≤ 9` maps into `'0'..'9'`). -/
def decDigitChar (d : Nat) : Char := Char.ofNat (48 + d)

/-- Fuel-driven little-endian decimal digits (`decDigits` supplies `n`
itself as fuel).  Written with a plain `Nat.rec` rather than the equation
compiler so that evaluating it on a numeral peels only one fuel step per
produced digit instead of materialising a `brecOn` tower of the whole
numeral. -/
def decDigitsAux (fuel : Nat) : Nat → List Nat :=
  Nat.rec (motive := fun _ => Nat → List Nat)
    (fun _ => [])
    (fun _ ih n =>
      match n with
      | 0 => []
      | m + 1 => (m + 1) % 10 :: ih ((m + 1) / 10))
    fuel

/-- Little-endian decimal digits of `n` (empty for `0`). -/
def decDigits (n : Nat) : List Nat := decDigitsAux n n

/-- Decimal rendering of a natural number, as Go's `fmt.Sprintf("%d", n)`
produces it: most-significant digit first, `"0"` for zero. -/
def natToDec (n : Nat) : String :=
  if n = 0 then "0"
  else ⟨((decDigits n).map decDigitChar).reverse⟩

/-- The value of a decimal digit character, `none` on a non-digit. -/
def decDigitVal (c : Char) : Option Nat :=
  if 48 ≤ c.toNat ∧ c.toNat ≤ 57 then some (c.toNat - 48) else none

/-- Strict decimal parse of a string: every character must be a digit and
the string must be nonempty, otherwise `none` (Go's `strconv` parse used on
the `epr.min`/`epr.max` labels fails on malformed input). -/
def decToNat? (s : String) : Option Nat :=
  match s.data.mapM decDigitVal with
  | none => none
  | some ds => if ds = [] then none else some (Nat.ofDigits 10 ds.reverse)

/-! ## Label codec

The five namespaced identity keys written by `Create` and read back by
`List`/`Get`, plus the traefik routing keys. -/

def nameKey : String := "m1k1o.neko_rooms.name"

def urlKey : String := "m1k1o.neko_rooms.url"

def canaryKey : String := "m1k1o.neko_rooms.canary"

def eprMinKey : String := "m1k1o.neko_rooms.epr.min"

def eprMaxKey : String := "m1k1o.neko_rooms.epr.max"

/-- Shared lead of the per-router traefik keys. -/
def routersPfx : String := "traefik.http.routers."

/-- Shared lead of the per-middleware traefik keys. -/
def middlewaresPfx : String := "traefik.http.middlewares."

def servicesKey (cn : String) : String :=
  "traefik.http.services." ++ cn ++ "-frontend.loadbalancer.server.port"

def entrypointsKey (cn : String) : String := routersPfx ++ cn ++ ".entrypoints"

def ruleKey (cn : String) : String := routersPfx ++ cn ++ ".rule"

def middlewaresKey (cn : String) : String := routersPfx ++ cn ++ ".middlewares"

def tlsKey (cn : String) : String := routersPfx ++ cn ++ ".tls"

def certresolverKey (cn : String) : String := routersPfx ++ cn ++ ".tls.certresolver"

def rdrRegexKey (cn : String) : String :=
  middlewaresPfx ++ cn ++ "-rdr.redirectregex.regex"

def rdrReplKey (cn : String) : String :=
  middlewaresPfx ++ cn ++ "-rdr.redirectregex.replacement"

def prfKey (cn : String) : String :=
  middlewaresPfx ++ cn ++ "-prf.stripprefix.prefixes"

/-- The URL scheme chosen by `Create`: `https` exactly when a traefik
certificate resolver is configured (non-empty). -/
def urlProto (cfg : RoomConfig) : String :=
  if cfg.TraefikCertresolver = "" then "http" else "https"

/-- The room URL written into the `m1k1o.neko_rooms.url` label. -/
def mkURL (cfg : RoomConfig) (roomName : String) : String :=
  urlProto cfg ++ "://" ++ cfg.TraefikDomain ++ "/" ++ roomName ++ "/"

/-- The label map literal of `Create`, in source order: the five namespaced
identity labels, then the traefik routing labels. -/
def baseLabels (cfg : RoomConfig) (roomName : String) (epr : PortRange) :
    List (String × String) :=
  let cn := containerPfx ++ roomName
  [(nameKey, roomName),
   (urlKey, mkURL cfg roomName),
   (canaryKey, labelCanary),
   (eprMinKey, natToDec epr.min),
   (eprMaxKey, natToDec epr.max),
   ("traefik.enable", "true"),
   (servicesKey cn, natToDec frontendPort),
   (entrypointsKey cn, cfg.TraefikEntrypoint),
   (ruleKey cn, "Host(`" ++ cfg.TraefikDomain ++ "`) && PathPrefix(`/" ++ roomName ++ "`)"),
   (rdrRegexKey cn, "/" ++ roomName ++ "$$"),
   (rdrReplKey cn, "/" ++ roomName ++ "/"),
   (prfKey cn, "/" ++ roomName ++ "/"),
   (middlewaresKey cn, cn ++ "-rdr," ++ cn ++ "-prf")]

/-- The two TLS routing labels `Create` adds exactly when a certificate
resolver is configured. -/
def tlsLabels (cfg : RoomConfig) (roomName : String) : List (String × String) :=
  if cfg.TraefikCertresolver = "" then []
  else [(tlsKey (containerPfx ++ roomName), "true"),
        (certresolverKey (containerPfx ++ roomName), cfg.TraefikCertresolver)]

/-- The labels `Create` attaches to a room's container, in the order they
appear in the source; a Go map with pairwise-distinct keys is modelled as an
association list queried by `List.lookup`. -/
def mkLabels (cfg : RoomConfig) (roomName : String) (epr : PortRange) :
    List (String × String) :=
  baseLabels cfg roomName epr ++ tlsLabels cfg roomName

/-- Modelled from the spec: `getEprFromLabels` decodes the leased port range
from the `epr.min`/`epr.max` labels, failing (`CorruptMetadataError`) when a
key is absent or its value does not parse as a decimal integer.  Its body is
not part of the sources; `List`, `Get` and the allocator call it. -/
def getEprFromLabels (labels : List (String × String)) : Except String PortRange :=
  match labels.lookup eprMinKey with
  | none => .error "CorruptMetadataError: epr.min not found"
  | some minS =>
    match decToNat? minS with
    | none => .error "CorruptMetadataError: epr.min unparsable"
    | some mn =>
      match labels.lookup eprMaxKey with
      | none => .error "CorruptMetadataError: epr.max not found"
      | some maxS =>
        match decToNat? maxS with
        | none => .error "CorruptMetadataError: epr.max unparsable"
        | some mx => .ok ⟨mn, mx⟩

/-- Modelled from the spec: `listContainers` asks the engine for all
workloads and keeps exactly those bearing the canary marker label; its body
is not part of the sources.  The engine inventory is the argument. -/
def listContainers (inv : List Container) : List Container :=
  inv.filter (fun c => c.Labels.lookup canaryKey == some labelCanary)

/-- The body of `List`'s loop for one container: read the name and url
labels, decode the port range, and build the `RoomEntry`; any failure aborts
with the source's error. -/
def decodeEntry (c : Container) : Except String RoomEntry :=
  match c.Labels.lookup nameKey with
  | none => .error "Damaged container labels: name not found."
  | some roomName =>
    match c.Labels.lookup urlKey with
    | none => .error "Damaged container labels: url not found."
    | some url =>
      match getEprFromLabels c.Labels with
      | .error e => .error e
      | .ok epr =>
        .ok { ID := c.ID, URL := url, Name := roomName,
              MaxConnections := epr.max - epr.min + 1,
              Image := c.Image, Running := c.State == "running",
              Status := c.Status, Created := c.Created }

/-- The accumulation loop of `List`. -/
def listRoomsLoop : List Container → List RoomEntry → Except String (List RoomEntry)
  | [], acc => .ok acc
  | c :: rest, acc =>
    match decodeEntry c with
    | .error e => .error e
    | .ok entry => listRoomsLoop rest (acc ++ [entry])

/-- Operation `List()`: enumerate the canary-marked containers and decode each one;
the first decode failure fails the whole call. -/
def listRooms (inv : List Container) : Except String (List RoomEntry) :=
  listRoomsLoop (listContainers inv) []

/-! ## Port allocator (modelled from the spec, §4.2)

`allocatePorts` is called by `Create` but its body is not part of the
sources.  Modelled from the spec: sort the existing leased ranges by start,
scan the window from its lower bound greedily skipping leased intervals, and
return the first gap of the requested size (first-fit). -/

/-- Ordering of leases by start, used to sort before the scan. -/
def leaseLE (a b : PortRange) : Prop := a.min ≤ b.min

instance : DecidableRel leaseLE := fun a b => Nat.decLe a.min b.min

instance : IsTotal PortRange leaseLE := ⟨fun a b => Nat.le_total a.min b.min⟩

instance : IsTrans PortRange leaseLE := ⟨fun _ _ _ => Nat.le_trans⟩

/-- The first-fit scan over the sorted leases: `cursor` is the lowest port
not yet known to be unusable.  A lease entirely below the cursor is skipped;
if the gap before the next lease fits the requested size the cursor is
returned (provided it stays inside the window); otherwise the cursor jumps
past the lease. -/
def scanGap (size winMax : Nat) : Nat → List PortRange → Option Nat
  | cursor, [] => if cursor + size - 1 ≤ winMax then some cursor else none
  | cursor, r :: rest =>
    if r.max < cursor then scanGap size winMax cursor rest
    else if cursor + size ≤ r.min then
      (if cursor + size - 1 ≤ winMax then some cursor else none)
    else scanGap size winMax (r.max + 1) rest

/-- Modelled from the spec: `allocate(requestedSize, globalWindow,
existingRanges)`; first-fit inside the window, `none` on exhaustion. -/
def allocate (size : Nat) (window : PortRange) (existing : List PortRange) :
    Option PortRange :=
  match scanGap size window.max window.min (existing.insertionSort leaseLE) with
  | none => none
  | some s => some ⟨s, s + size - 1⟩

/-- Modelled from the spec: collecting the leased ranges of the existing
canary-marked containers; a decode failure is fatal to the allocation
attempt. -/
def collectRanges : List Container → Except String (List PortRange)
  | [] => .ok []
  | c :: rest =>
    match getEprFromLabels c.Labels with
    | .error e => .error e
    | .ok r =>
      match collectRanges rest with
      | .error e => .error e
      | .ok rs => .ok (r :: rs)

/-- Modelled from the spec: `allocatePorts(max_connections)` — reject a zero
request (`InvalidRequestError`), rebuild the lease set from the live
canary-marked inventory, and run the first-fit allocation over the
configured window, reporting `PortExhaustionError` when no gap fits.  Its
body is not part of the sources; `Create` calls it. -/
def allocatePorts (size : Nat) (cfg : RoomConfig) (inv : List Container) :
    Except String PortRange :=
  if size = 0 then .error "InvalidRequestError"
  else
    match collectRanges (listContainers inv) with
    | .error e => .error e
    | .ok existing =>
      match allocate size ⟨cfg.EprMin, cfg.EprMax⟩ existing with
      | none => .error "PortExhaustionError"
      | some r => .ok r

/-- Predicate: `s` is a usable start for a block of `size` ports: the block
`[s, s+size-1]` lies inside the window and misses every existing lease. -/
def validStart (size : Nat) (window : PortRange) (existing : List PortRange)
    (s : Nat) : Prop :=
  window.min ≤ s ∧ s + size - 1 ≤ window.max ∧
    ∀ e ∈ existing, s + size - 1 < e.min ∨ e.max < s

instance (size : Nat) (window : PortRange) (existing : List PortRange) (s : Nat) :
    Decidable (validStart size window existing s) := by
  unfold validStart; infer_instance

/-! ## Workload spec builder (from `Create`) -/

/-- The ports of the loop `for port := epr.Min; port <= epr.Max; port++`. -/
def portsOfRange (epr : PortRange) : List Nat :=
  (List.range (epr.max + 1 - epr.min)).map (epr.min + ·)

/-- A `nat.Port` key, e.g. `"59000/udp"`. -/
def portKey (p : Nat) : String := natToDec p ++ "/udp"

/-- One `nat.PortBinding`. -/
structure PortBinding where
  HostIP : String
  HostPort : String

/-- The `portBindings` map built by `Create`: one binding per port of the
allocated range, to host `0.0.0.0` with the identical port number. -/
def mkPortBindings (epr : PortRange) : List (String × List PortBinding) :=
  (portsOfRange epr).map (fun p => (portKey p, [⟨"0.0.0.0", natToDec p⟩]))

/-- The `exposedPorts` set built by `Create`: the frontend port plus every
port of the allocated range. -/
def mkExposedPorts (epr : PortRange) : List String :=
  portKey frontendPort :: (portsOfRange epr).map portKey

/-- The container environment built by `Create`: the fixed bind port, the
range as `MIN-MAX`, the comma-joined NAT hint list, then the
settings-derived entries. -/
def mkEnv (settings : RoomSettings) (cfg : RoomConfig) (epr : PortRange) :
    List String :=
  ["NEKO_BIND=" ++ natToDec frontendPort,
   "NEKO_EPR=" ++ natToDec epr.min ++ "-" ++ natToDec epr.max,
   "NEKO_NAT1TO1=" ++ String.intercalate "," cfg.NAT1To1IPs]
  ++ settings.ToEnv

/-! ## The engine model

The container engine is the sole holder of state: an inventory of
containers plus a log of the engine primitives that were invoked.
Engine-transport failures are injected through `EngineBehavior`. -/

/-- One invocation of an engine primitive. -/
inductive EngineEvent where
  | createEv (name : String)
  | startEv (id : String)
  | stopEv (id : String)
  | removeEv (id : String)
  | restartEv (id : String)

/-- Engine-side state: the workload inventory and the invocation log. -/
structure EngineState where
  containers : List Container
  events : List EngineEvent

/-- Injected engine behavior: transport errors for each primitive, the id
the engine assigns on create, and the creation timestamp. -/
structure EngineBehavior where
  createErr : Option String
  startErr : Option String
  stopErr : Option String
  removeErr : Option String
  restartErr : Option String
  newID : String
  now : Int

/-- Mark a container as running (a successful `ContainerStart`). -/
def setRunning (id : String) (cs : List Container) : List Container :=
  cs.map (fun c => if c.ID = id then { c with State := "running" } else c)

/-- Mark a container as exited (a successful `ContainerStop`). -/
def setExited (id : String) (cs : List Container) : List Container :=
  cs.map (fun c => if c.ID = id then { c with State := "exited" } else c)

/-- Modelled from the spec: `inspectContainer(id)` — resolve the id against
the engine inventory and reject (`NotFoundError`) a workload that does not
exist or does not bear the canary marker; its body is not part of the
sources.  `Get`, `Remove`, `Start`, `Stop` and `Restart` call it. -/
def inspectContainer (id : String) (st : EngineState) : Except String Container :=
  match st.containers.find? (fun c => c.ID == id) with
  | none => .error "NotFoundError"
  | some c =>
    if c.Labels.lookup canaryKey = some labelCanary then .ok c
    else .error "NotFoundError"

/-- Operation `Create(settings)`: resolve the room name (`genName` stands for the
random identifier `utils.NewUID` would produce), allocate a port range
against the current inventory, build the labels/env/port spec, then ask the
engine to create and finally start the container.  Returns the engine id on
success; any failure is returned as-is, with whatever engine state the
completed engine calls left behind. -/
def createRoom (settings : RoomSettings) (genName : String) (cfg : RoomConfig)
    (beh : EngineBehavior) (st : EngineState) :
    Except String String × EngineState :=
  let roomName := if settings.Name = "" then genName else settings.Name
  match allocatePorts settings.MaxConnections cfg st.containers with
  | .error e => (.error e, st)
  | .ok epr =>
    let cn := containerPfx ++ roomName
    let newC : Container :=
      { ID := beh.newID, Labels := mkLabels cfg roomName epr,
        Env := mkEnv settings cfg epr, Image := nekoImage,
        State := "created", Status := "", Created := beh.now }
    match beh.createErr with
    | some e => (.error e, { st with events := st.events ++ [.createEv cn] })
    | none =>
      let st₁ : EngineState :=
        { containers := st.containers ++ [newC],
          events := st.events ++ [.createEv cn] }
      match beh.startErr with
      | some e =>
          (.error e, { st₁ with events := st₁.events ++ [.startEv beh.newID] })
      | none =>
          (.ok beh.newID,
           { containers := setRunning beh.newID st₁.containers,
             events := st₁.events ++ [.startEv beh.newID] })

/-- Operation `Get(id)`: inspect the container, decode name and port range from its
labels, and restore the settings-derived options from its environment. -/
def getRoom (id : String) (st : EngineState) : Except String RoomSettings :=
  match inspectContainer id st with
  | .error e => .error e
  | .ok c =>
    match c.Labels.lookup nameKey with
    | none => .error "Damaged container labels: name not found."
    | some roomName =>
      match getEprFromLabels c.Labels with
      | .error e => .error e
      | .ok epr =>
        RoomSettings.FromEnv
          { Name := roomName, MaxConnections := epr.max - epr.min + 1,
            envOptions := [] } c.Env

/-- Operation `Remove(id)`: inspect (membership check), then stop and forcibly remove
the container with its volumes. -/
def removeRoom (id : String) (beh : EngineBehavior) (st : EngineState) :
    Except String Unit × EngineState :=
  match inspectContainer id st with
  | .error e => (.error e, st)
  | .ok _ =>
    let st₁ : EngineState := { st with events := st.events ++ [.stopEv id] }
    match beh.stopErr with
    | some e => (.error e, st₁)
    | none =>
      let st₂ : EngineState := { st₁ with containers := setExited id st₁.containers }
      let st₃ : EngineState := { st₂ with events := st₂.events ++ [.removeEv id] }
      match beh.removeErr with
      | some e => (.error e, st₃)
      | none =>
          (.ok (), { st₃ with containers := st₃.containers.filter (fun c => c.ID ≠ id) })

/-- Operation `Start(id)`: inspect (membership check), then delegate to the engine's
start primitive. -/
def startRoom (id : String) (beh : EngineBehavior) (st : EngineState) :
    Except String Unit × EngineState :=
  match inspectContainer id st with
  | .error e => (.error e, st)
  | .ok _ =>
    let st₁ : EngineState := { st with events := st.events ++ [.startEv id] }
    match beh.startErr with
    | some e => (.error e, st₁)
    | none => (.ok (), { st₁ with containers := setRunning id st₁.containers })

/-- Operation `Stop(id)`: inspect (membership check), then delegate to the engine's
stop primitive. -/
def stopRoom (id : String) (beh : EngineBehavior) (st : EngineState) :
    Except String Unit × EngineState :=
  match inspectContainer id st with
  | .error e => (.error e, st)
  | .ok _ =>
    let st₁ : EngineState := { st with events := st.events ++ [.stopEv id] }
    match beh.stopErr with
    | some e => (.error e, st₁)
    | none => (.ok (), { st₁ with containers := setExited id st₁.containers })

/-- Operation `Restart(id)`: inspect (membership check), then delegate to the engine's
restart primitive. -/
def restartRoom (id : String) (beh : EngineBehavior) (st : EngineState) :
    Except String Unit × EngineState :=
  match inspectContainer id st with
  | .error e => (.error e, st)
  | .ok _ =>
    let st₁ : EngineState := { st with events := st.events ++ [.restartEv id] }
    match beh.restartErr with
    | some e => (.error e, st₁)
    | none => (.ok (), { st₁ with containers := setRunning id st₁.containers })

/-! ## Concrete sample data -/

/-- A configuration with the spec's example window `[59000, 59009]` and no
TLS resolver. -/
def sampleCfg : RoomConfig :=
  { TraefikDomain := "example.com", TraefikEntrypoint := "web",
    TraefikCertresolver := "", TraefikNetwork := "traefik",
    NAT1To1IPs := [], EprMin := 59000, EprMax := 59009 }

/-- The same configuration with a certificate resolver configured. -/
def sampleCfgTLS : RoomConfig := { sampleCfg with TraefikCertresolver := "le" }

/-- A well-formed room container leasing `[59000, 59004]`. -/
def sampleContainer : Container :=
  { ID := "c1",
    Labels := [(nameKey, "room1"), (urlKey, "http://example.com/room1/"),
               (canaryKey, labelCanary), (eprMinKey, "59000"), (eprMaxKey, "59004")],
    Env := [], Image := nekoImage, State := "running", Status := "Up", Created := 0 }

/-- A canary-marked container with an unparsable `epr.min` label. -/
def corruptContainer : Container :=
  { ID := "c2",
    Labels := [(nameKey, "room2"), (urlKey, "http://example.com/room2/"),
               (canaryKey, labelCanary), (eprMinKey, "oops"), (eprMaxKey, "59009")],
    Env := [], Image := nekoImage, State := "exited", Status := "Exited", Created := 0 }

/-- An unrelated workload without the canary marker. -/
def alienContainer : Container :=
  { ID := "c3", Labels := [("some.other.label", "x")],
    Env := [], Image := "other:latest", State := "running", Status := "Up",
    Created := 0 }

/-- The listing entry of `sampleContainer`. -/
def sampleEntry : RoomEntry :=
  { ID := "c1", URL := "http://example.com/room1/", Name := "room1",
    MaxConnections := 5, Image := nekoImage, Running := true, Status := "Up",
    Created := 0 }

/-- Sample settings requesting capacity 5. -/
def sampleSettings : RoomSettings :=
  { Name := "room9", MaxConnections := 5, envOptions := ["NEKO_PASSWORD=secret"] }

/-- An engine behavior in which every primitive succeeds. -/
def okBehavior : EngineBehavior :=
  { createErr := none, startErr := none, stopErr := none, removeErr := none,
    restartErr := none, newID := "new1", now := 7 }

/-! ## Decimal codec and scan lemmas -/

/-- Defining equation of `decDigitsAux` with fuel and value both positive. -/
theorem decDigitsAux_succ_succ (f m : Nat) :
    decDigitsAux (f + 1) (m + 1) = (m + 1) % 10 :: decDigitsAux f ((m + 1) / 10) :=
  rfl

/-- Agreement of `decDigits` with Mathlib's `Nat.digits 10`. -/
theorem decDigitsAux_eq_digits : ∀ fuel n, n ≤ fuel → decDigitsAux fuel n = Nat.digits 10 n := by
  intro fuel
  induction fuel with
  | zero =>
      intro n hn
      interval_cases n
      rw [Nat.digits_zero]
      rfl
  | succ f ih =>
      intro n hn
      match n with
      | 0 =>
          rw [Nat.digits_zero]
          rfl
      | m + 1 =>
          rw [decDigitsAux_succ_succ]
          rw [Nat.digits_def' (by norm_num : 1 < 10) (Nat.succ_pos m)]
          congr 1
          exact ih ((m + 1) / 10) (by omega)

theorem decDigits_eq_digits (n : Nat) : decDigits n = Nat.digits 10 n :=
  decDigitsAux_eq_digits n n (le_refl n)

theorem decDigitVal_decDigitChar {d : Nat} (hd : d < 10) :
    decDigitVal (decDigitChar d) = some d := by
  interval_cases d <;> decide

/-- Evaluating `mapM` over a list on which `f` is pointwise `some ∘ g`. -/
theorem mapM_eq_map {α β : Type} (f : α → Option β) (g : α → β)
    (l : List α) (h : ∀ a ∈ l, f a = some (g a)) :
    l.mapM f = some (l.map g) := by
  induction l with
  | nil => rfl
  | cons a t ih =>
      have ha : f a = some (g a) := h a (by simp)
      have ht : t.mapM f = some (t.map g) := ih (fun x hx => h x (by simp [hx]))
      rw [List.mapM_cons, ha, ht]
      rfl

/-- Round trip: parsing the decimal rendering of `n` gives back `n`. -/
theorem decToNat?_natToDec (n : Nat) : decToNat? (natToDec n) = some n := by
  by_cases h0 : n = 0
  · subst h0; decide
  · have hne : Nat.digits 10 n ≠ [] := by
      simpa [Nat.digits_ne_nil_iff_ne_zero] using h0
    have hlt : ∀ d ∈ Nat.digits 10 n, d < 10 :=
      fun d hd => Nat.digits_lt_base (by norm_num) hd
    have hdata : (natToDec n).data = ((Nat.digits 10 n).map decDigitChar).reverse := by
      simp [natToDec, h0, decDigits_eq_digits]
    have hmap :
        ((Nat.digits 10 n).map decDigitChar).reverse.mapM decDigitVal
          = some (((Nat.digits 10 n).map decDigitChar).reverse.map
              (fun c => c.toNat - 48)) := by
      apply mapM_eq_map
      intro c hc
      simp only [List.mem_reverse, List.mem_map] at hc
      obtain ⟨d, hd, rfl⟩ := hc
      have hd10 := hlt d hd
      have : decDigitVal (decDigitChar d) = some d := decDigitVal_decDigitChar hd10
      rw [this]
      congr 1
      interval_cases d <;> decide
    have hback :
        ((Nat.digits 10 n).map decDigitChar).reverse.map (fun c => c.toNat - 48)
          = (Nat.digits 10 n).reverse := by
      rw [← List.map_reverse, List.map_map]
      conv_rhs => rw [← List.map_id ((Nat.digits 10 n).reverse)]
      apply List.map_congr_left
      intro d hd
      rw [List.mem_reverse] at hd
      have hd10 := hlt d hd
      simp only [Function.comp_apply, List.map_id, id_eq]
      interval_cases d <;> decide
    have hnil : ((Nat.digits 10 n).map decDigitChar).reverse ≠ [] := by
      simp [hne]
    unfold decToNat?
    rw [hdata, hmap]
    simp only [hback]
    rw [if_neg (by simpa using hne)]
    simp [Nat.ofDigits_digits]

/-- Decimal rendering is injective (two distinct numbers never share a
rendering), a consequence of the round trip. -/
theorem natToDec_injective : Function.Injective natToDec := by
  intro a b h
  have := decToNat?_natToDec a
  rw [h, decToNat?_natToDec b] at this
  exact (Option.some.injEq _ _ ▸ this).symm

/-- Soundness and minimality of the scan on a sorted lease list: a returned
start is at or above the cursor, inside the window, disjoint from every
lease, and at or below every usable start at or above the cursor. -/
theorem scanGap_some (size winMax : Nat) (hsz : 0 < size) :
    ∀ (l : List PortRange) (cursor s : Nat),
      l.Sorted leaseLE →
      scanGap size winMax cursor l = some s →
      cursor ≤ s ∧ s + size - 1 ≤ winMax ∧
        (∀ e ∈ l, s + size - 1 < e.min ∨ e.max < s) ∧
        (∀ t, cursor ≤ t → t + size - 1 ≤ winMax →
          (∀ e ∈ l, t + size - 1 < e.min ∨ e.max < t) → s ≤ t) := by
  intro l
  induction l with
  | nil =>
      intro cursor s _ h
      by_cases hw : cursor + size - 1 ≤ winMax
      · rw [scanGap, if_pos hw] at h
        obtain rfl := Option.some.inj h
        exact ⟨le_refl _, hw, by simp, fun t hct _ _ => hct⟩
      · rw [scanGap, if_neg hw] at h
        exact absurd h (by simp)
  | cons r rest ih =>
      intro cursor s hsort h
      obtain ⟨hpair, hrest⟩ := List.sorted_cons.mp hsort
      by_cases h1 : r.max < cursor
      · rw [scanGap, if_pos h1] at h
        obtain ⟨ha, hb, hc, hd⟩ := ih cursor s hrest h
        refine ⟨ha, hb, ?_, ?_⟩
        · intro e he
          rcases List.mem_cons.mp he with rfl | he'
          · exact Or.inr (lt_of_lt_of_le h1 ha)
          · exact hc e he'
        · intro t hct hw hdis
          exact hd t hct hw (fun e he => hdis e (List.mem_cons_of_mem _ he))
      · by_cases h2 : cursor + size ≤ r.min
        · rw [scanGap, if_neg h1, if_pos h2] at h
          by_cases hw : cursor + size - 1 ≤ winMax
          · rw [if_pos hw] at h
            obtain rfl := Option.some.inj h
            refine ⟨le_refl _, hw, ?_, fun t hct _ _ => hct⟩
            intro e he
            rcases List.mem_cons.mp he with rfl | he'
            · exact Or.inl (by omega)
            · exact Or.inl (by have := hpair e he'; unfold leaseLE at this; omega)
          · rw [if_neg hw] at h
            exact absurd h (by simp)
        · rw [scanGap, if_neg h1, if_neg h2] at h
          obtain ⟨ha, hb, hc, hd⟩ := ih (r.max + 1) s hrest h
          have hcur : cursor ≤ r.max := Nat.le_of_not_lt h1
          refine ⟨by omega, hb, ?_, ?_⟩
          · intro e he
            rcases List.mem_cons.mp he with rfl | he'
            · exact Or.inr (by omega)
            · exact hc e he'
          · intro t hct hw hdis
            by_cases hts : r.max + 1 ≤ t
            · exact hd t hts hw (fun e he => hdis e (List.mem_cons_of_mem _ he))
            · exfalso
              rcases hdis r (List.mem_cons_self _ _) with hlt | hgt
              · omega
              · omega

/-- Completeness of the scan: when it fails, there is no usable start at or
above the cursor. -/
theorem scanGap_none (size winMax : Nat) (hsz : 0 < size) :
    ∀ (l : List PortRange) (cursor : Nat),
      scanGap size winMax cursor l = none →
      ∀ t, cursor ≤ t →
        ¬(t + size - 1 ≤ winMax ∧ ∀ e ∈ l, t + size - 1 < e.min ∨ e.max < t) := by
  intro l
  induction l with
  | nil =>
      intro cursor h t hct hval
      by_cases hw : cursor + size - 1 ≤ winMax
      · rw [scanGap, if_pos hw] at h
        exact absurd h (by simp)
      · exact hw (by omega)
  | cons r rest ih =>
      intro cursor h t hct hval
      obtain ⟨hw, hdis⟩ := hval
      by_cases h1 : r.max < cursor
      · rw [scanGap, if_pos h1] at h
        exact ih cursor h t hct
          ⟨hw, fun e he => hdis e (List.mem_cons_of_mem _ he)⟩
      · by_cases h2 : cursor + size ≤ r.min
        · rw [scanGap, if_neg h1, if_pos h2] at h
          by_cases hw' : cursor + size - 1 ≤ winMax
          · rw [if_pos hw'] at h
            exact absurd h (by simp)
          · exact hw' (by omega)
        · rw [scanGap, if_neg h1, if_neg h2] at h
          by_cases hts : r.max + 1 ≤ t
          · exact ih (r.max + 1) h t hts
              ⟨hw, fun e he => hdis e (List.mem_cons_of_mem _ he)⟩
          · rcases hdis r (List.mem_cons_self _ _) with hlt | hgt
            · omega
            · omega

/-! ## Association-list and string helper lemmas -/

theorem lookup_cons_self {β : Type} (k : String) (v : β) (l : List (String × β)) :
    List.lookup k ((k, v) :: l) = some v := by
  simp [List.lookup_cons]

theorem lookup_cons_ne {β : Type} {k k' : String} (v : β) (l : List (String × β))
    (h : k ≠ k') : List.lookup k ((k', v) :: l) = List.lookup k l := by
  rw [List.lookup_cons]
  have hb : (k == k') = false := beq_eq_false_iff_ne.mpr h
  rw [hb]

theorem lookup_append_of_none {β : Type} {k : String} {l₁ : List (String × β)}
    (l₂ : List (String × β)) (h : List.lookup k l₁ = none) :
    List.lookup k (l₁ ++ l₂) = List.lookup k l₂ := by
  induction l₁ with
  | nil => rfl
  | cons a t ih =>
      obtain ⟨k', v⟩ := a
      rw [List.lookup_cons] at h
      rw [List.cons_append, List.lookup_cons]
      cases hb : k == k' with
      | true => rw [hb] at h; exact absurd h (by simp)
      | false => rw [hb] at h; exact ih h

theorem take_append3 {p c s : List Char} {k : Nat} (hk : k ≤ p.length) :
    (p ++ c ++ s).take k = p.take k := by
  rw [List.append_assoc, List.take_append_of_le_length hk]

/-- Two strings of the shape `lead ++ middle ++ tail` differ whenever their
leads differ within their common span. -/
theorem append3_ne_append3 (p c s q d t : String) (k : Nat)
    (hp : k ≤ p.data.length) (hq : k ≤ q.data.length)
    (h : p.data.take k ≠ q.data.take k) :
    p ++ c ++ s ≠ q ++ d ++ t := by
  intro heq
  apply h
  have hd : (p ++ c ++ s).data = (q ++ d ++ t).data := by rw [heq]
  rw [String.data_append, String.data_append, String.data_append,
    String.data_append] at hd
  calc p.data.take k = (p.data ++ c.data ++ s.data).take k := (take_append3 hp).symm
    _ = (q.data ++ d.data ++ t.data).take k := by rw [hd]
    _ = q.data.take k := take_append3 hq

theorem append3_ne_const (p c s q : String) (k : Nat)
    (hp : k ≤ p.data.length)
    (h : p.data.take k ≠ q.data.take k) :
    p ++ c ++ s ≠ q := by
  intro heq
  apply h
  have hd : (p ++ c ++ s).data = q.data := by rw [heq]
  rw [String.data_append, String.data_append] at hd
  calc p.data.take k = (p.data ++ c.data ++ s.data).take k := (take_append3 hp).symm
    _ = q.data.take k := by rw [hd]

/-- Two strings sharing lead and middle differ when their tails differ. -/
theorem append3_right_ne (p c : String) {s t : String} (h : s ≠ t) :
    p ++ c ++ s ≠ p ++ c ++ t := by
  intro heq
  apply h
  have hd : (p ++ c ++ s).data = (p ++ c ++ t).data := by rw [heq]
  rw [String.data_append, String.data_append, String.data_append,
    String.data_append] at hd
  exact String.ext (List.append_cancel_left hd)

/-! ## Lookup lemmas for the label map -/

theorem mkLabels_lookup_name (cfg : RoomConfig) (roomName : String) (epr : PortRange) :
    (mkLabels cfg roomName epr).lookup nameKey = some roomName := by
  show List.lookup nameKey ((nameKey, roomName) :: _) = some roomName
  exact lookup_cons_self _ _ _

theorem mkLabels_lookup_url (cfg : RoomConfig) (roomName : String) (epr : PortRange) :
    (mkLabels cfg roomName epr).lookup urlKey = some (mkURL cfg roomName) := by
  show List.lookup urlKey
    ((nameKey, roomName) :: (urlKey, mkURL cfg roomName) :: _) = some (mkURL cfg roomName)
  rw [lookup_cons_ne _ _ (by decide), lookup_cons_self]

theorem mkLabels_lookup_canary (cfg : RoomConfig) (roomName : String) (epr : PortRange) :
    (mkLabels cfg roomName epr).lookup canaryKey = some labelCanary := by
  show List.lookup canaryKey
    ((nameKey, roomName) :: (urlKey, _) :: (canaryKey, labelCanary) :: _) = some labelCanary
  rw [lookup_cons_ne _ _ (by decide), lookup_cons_ne _ _ (by decide), lookup_cons_self]

theorem mkLabels_getEpr (cfg : RoomConfig) (roomName : String) (epr : PortRange) :
    getEprFromLabels (mkLabels cfg roomName epr) = .ok epr := by
  have hmin : (mkLabels cfg roomName epr).lookup eprMinKey = some (natToDec epr.min) := by
    show List.lookup eprMinKey ((nameKey, roomName) :: (urlKey, _) ::
      (canaryKey, _) :: (eprMinKey, natToDec epr.min) :: _) = _
    rw [lookup_cons_ne _ _ (by decide), lookup_cons_ne _ _ (by decide),
      lookup_cons_ne _ _ (by decide), lookup_cons_self]
  have hmax : (mkLabels cfg roomName epr).lookup eprMaxKey = some (natToDec epr.max) := by
    show List.lookup eprMaxKey ((nameKey, roomName) :: (urlKey, _) ::
      (canaryKey, _) :: (eprMinKey, _) :: (eprMaxKey, natToDec epr.max) :: _) = _
    rw [lookup_cons_ne _ _ (by decide), lookup_cons_ne _ _ (by decide),
      lookup_cons_ne _ _ (by decide), lookup_cons_ne _ _ (by decide),
      lookup_cons_self]
  simp only [getEprFromLabels, hmin, hmax, decToNat?_natToDec]

/-- A per-router key whose trailing segment is none of the three used by the
base labels misses every base label. -/
theorem baseLabels_lookup_routers_none (cfg : RoomConfig) (roomName : String)
    (epr : PortRange) (sfx : String)
    (h1 : sfx ≠ ".entrypoints") (h2 : sfx ≠ ".rule") (h3 : sfx ≠ ".middlewares") :
    (baseLabels cfg roomName epr).lookup
      (routersPfx ++ (containerPfx ++ roomName) ++ sfx) = none := by
  show List.lookup _ ((nameKey, _) :: (urlKey, _) :: (canaryKey, _) :: (eprMinKey, _) ::
    (eprMaxKey, _) :: ("traefik.enable", _) :: (servicesKey _, _) ::
    (entrypointsKey _, _) :: (ruleKey _, _) :: (rdrRegexKey _, _) ::
    (rdrReplKey _, _) :: (prfKey _, _) :: (middlewaresKey _, _) :: []) = none
  simp only [servicesKey, entrypointsKey, ruleKey, rdrRegexKey, rdrReplKey,
    prfKey, middlewaresKey]
  rw [lookup_cons_ne _ _ (append3_ne_const _ _ _ _ 1 (by decide) (by decide)),
    lookup_cons_ne _ _ (append3_ne_const _ _ _ _ 1 (by decide) (by decide)),
    lookup_cons_ne _ _ (append3_ne_const _ _ _ _ 1 (by decide) (by decide)),
    lookup_cons_ne _ _ (append3_ne_const _ _ _ _ 1 (by decide) (by decide)),
    lookup_cons_ne _ _ (append3_ne_const _ _ _ _ 1 (by decide) (by decide)),
    lookup_cons_ne _ _ (append3_ne_const _ _ _ _ 9 (by decide) (by decide)),
    lookup_cons_ne _ _ (append3_ne_append3 _ _ _ _ _ _ 14 (by decide) (by decide) (by decide)),
    lookup_cons_ne _ _ (append3_right_ne _ _ h1),
    lookup_cons_ne _ _ (append3_right_ne _ _ h2),
    lookup_cons_ne _ _ (append3_ne_append3 _ _ _ _ _ _ 14 (by decide) (by decide) (by decide)),
    lookup_cons_ne _ _ (append3_ne_append3 _ _ _ _ _ _ 14 (by decide) (by decide) (by decide)),
    lookup_cons_ne _ _ (append3_ne_append3 _ _ _ _ _ _ 14 (by decide) (by decide) (by decide)),
    lookup_cons_ne _ _ (append3_right_ne _ _ h3)]
  rfl

theorem mkLabels_lookup_tls (cfg : RoomConfig) (roomName : String) (epr : PortRange) :
    (mkLabels cfg roomName epr).lookup (tlsKey (containerPfx ++ roomName)) =
      (if cfg.TraefikCertresolver = "" then none else some "true") := by
  have hbase := baseLabels_lookup_routers_none cfg roomName epr ".tls"
    (by decide) (by decide) (by decide)
  rw [mkLabels, tlsKey, lookup_append_of_none _ hbase, tlsLabels]
  by_cases h : cfg.TraefikCertresolver = ""
  · rw [if_pos h, if_pos h]
    rfl
  · rw [if_neg h, if_neg h]
    exact lookup_cons_self _ _ _

theorem mkLabels_lookup_certresolver (cfg : RoomConfig) (roomName : String)
    (epr : PortRange) :
    (mkLabels cfg roomName epr).lookup (certresolverKey (containerPfx ++ roomName)) =
      (if cfg.TraefikCertresolver = "" then none
       else some cfg.TraefikCertresolver) := by
  have hbase := baseLabels_lookup_routers_none cfg roomName epr ".tls.certresolver"
    (by decide) (by decide) (by decide)
  rw [mkLabels, certresolverKey, lookup_append_of_none _ hbase, tlsLabels]
  by_cases h : cfg.TraefikCertresolver = ""
  · rw [if_pos h, if_pos h]
    rfl
  · rw [if_neg h, if_neg h]
    have hne : routersPfx ++ (containerPfx ++ roomName) ++ ".tls.certresolver" ≠
        tlsKey (containerPfx ++ roomName) := by
      rw [tlsKey]
      exact append3_right_ne _ _ (by decide)
    rw [lookup_cons_ne _ _ hne]
    exact lookup_cons_self _ _ _

/-! ## Helper lemmas about the `List` loop -/

theorem listRoomsLoop_error_of_mem :
    ∀ (l : List Container) (acc : List RoomEntry) (c : Container), c ∈ l →
      ∀ (e : String), decodeEntry c = .error e →
        ∃ e', listRoomsLoop l acc = .error e' := by
  intro l
  induction l with
  | nil =>
      intro acc c hc e h
      exact absurd hc (List.not_mem_nil c)
  | cons d t ih =>
      intro acc c hc e h
      rcases List.mem_cons.mp hc with rfl | hc'
      · rw [listRoomsLoop, h]
        exact ⟨e, rfl⟩
      · rw [listRoomsLoop]
        cases hd : decodeEntry d with
        | error e' => exact ⟨e', rfl⟩
        | ok en => exact ih _ c hc' e h

theorem listRoomsLoop_ok_of_all :
    ∀ (l : List Container) (acc : List RoomEntry),
      (∀ c ∈ l, ∃ en, decodeEntry c = .ok en) →
      ∃ tail, listRoomsLoop l acc = .ok (acc ++ tail) ∧ tail.length = l.length ∧
        ∀ c ∈ l, ∃ en ∈ tail, decodeEntry c = .ok en := by
  intro l
  induction l with
  | nil =>
      intro acc _
      exact ⟨[], by rw [listRoomsLoop, List.append_nil], rfl,
        fun c hc => absurd hc (List.not_mem_nil c)⟩
  | cons d t ih =>
      intro acc h
      obtain ⟨en, hen⟩ := h d (List.mem_cons_self _ _)
      obtain ⟨tail, htl, hlen, hall⟩ :=
        ih (acc ++ [en]) (fun c hc => h c (List.mem_cons_of_mem _ hc))
      refine ⟨en :: tail, ?_, by simpa using hlen, ?_⟩
      · rw [listRoomsLoop, hen]
        show listRoomsLoop t (acc ++ [en]) = Except.ok (acc ++ en :: tail)
        rw [htl, List.append_assoc]
        rfl
      · intro c hc
        rcases List.mem_cons.mp hc with rfl | hc'
        · exact ⟨en, List.mem_cons_self _ _, hen⟩
        · obtain ⟨en', hen', hdec⟩ := hall c hc'
          exact ⟨en', List.mem_cons_of_mem _ hen', hdec⟩

theorem listRoomsLoop_mem :
    ∀ (l : List Container) (acc es : List RoomEntry),
      listRoomsLoop l acc = .ok es →
      ∀ en ∈ es, en ∈ acc ∨ ∃ c ∈ l, decodeEntry c = .ok en := by
  intro l
  induction l with
  | nil =>
      intro acc es h
      rw [listRoomsLoop] at h
      obtain rfl : acc = es := by injection h
      exact fun en hen => Or.inl hen
  | cons d t ih =>
      intro acc es h
      rw [listRoomsLoop] at h
      cases hd : decodeEntry d with
      | error e => rw [hd] at h; exact absurd h (by simp)
      | ok en' =>
          rw [hd] at h
          intro en hen
          rcases ih _ es h en hen with hacc | ⟨c, hc, hdec⟩
          · rcases List.mem_append.mp hacc with hacc' | hsing
            · exact Or.inl hacc'
            · obtain rfl : en = en' := by simpa using hsing
              exact Or.inr ⟨d, List.mem_cons_self _ _, hd⟩
          · exact Or.inr ⟨c, List.mem_cons_of_mem _ hc, hdec⟩

/-- Full correctness of the first-fit allocation over a window: a returned
range is inside the window, has the requested size, misses every existing
lease, and starts lowest among all usable starts; `none` is returned only
when no usable start exists. -/
theorem allocate_spec (size : Nat) (window : PortRange) (existing : List PortRange)
    (hsz : 0 < size) :
    (∀ r, allocate size window existing = some r →
        window.min ≤ r.min ∧ r.max ≤ window.max ∧ r.max + 1 - r.min = size ∧
        (∀ e ∈ existing, r.max < e.min ∨ e.max < r.min) ∧
        (∀ s, validStart size window existing s → r.min ≤ s)) ∧
    (allocate size window existing = none →
        ∀ s, ¬ validStart size window existing s) := by
  have hsorted : (existing.insertionSort leaseLE).Sorted leaseLE :=
    List.sorted_insertionSort leaseLE existing
  have hmem : ∀ e : PortRange, e ∈ existing.insertionSort leaseLE ↔ e ∈ existing :=
    fun e => (List.perm_insertionSort leaseLE existing).mem_iff
  constructor
  · intro r hr
    unfold allocate at hr
    cases hscan : scanGap size window.max window.min (existing.insertionSort leaseLE) with
    | none =>
        rw [hscan] at hr
        exact Option.noConfusion hr
    | some s =>
        rw [hscan] at hr
        have hr' : some (PortRange.mk s (s + size - 1)) = some r := hr
        obtain rfl := Option.some.inj hr'
        obtain ⟨ha, hb, hc, hd⟩ :=
          scanGap_some size window.max hsz _ window.min s hsorted hscan
        refine ⟨ha, hb, by show s + size - 1 + 1 - s = size; omega, ?_, ?_⟩
        · intro e he
          exact hc e ((hmem e).mpr he)
        · intro t ht
          obtain ⟨h1, h2, h3⟩ := ht
          exact hd t h1 h2 (fun e he => h3 e ((hmem e).mp he))
  · intro hn s hs
    unfold allocate at hn
    cases hscan : scanGap size window.max window.min (existing.insertionSort leaseLE) with
    | some s' =>
        rw [hscan] at hn
        exact Option.noConfusion hn
    | none =>
        obtain ⟨h1, h2, h3⟩ := hs
        exact scanGap_none size window.max hsz _ window.min hscan s h1
          ⟨h2, fun e he => h3 e ((hmem e).mp he)⟩

/-- C1: for every requested size and existing lease set, the allocation
performed by `Create` (`allocatePorts`) returns, when it succeeds, a
contiguous range of exactly the requested size, fully inside the configured
window and disjoint from every existing leased range, and it is minimal
(first-fit: the lowest usable start); it reports exhaustion only when no
usable start exists.  Determinism holds because `allocatePorts` is a pure
function of its arguments. -/
theorem allocatePorts_first_fit (size : Nat) (cfg : RoomConfig) (inv : List Container)
    (existing : List PortRange) (hsz : 0 < size)
    (hex : collectRanges (listContainers inv) = .ok existing) :
    (∀ r, allocatePorts size cfg inv = .ok r →
        cfg.EprMin ≤ r.min ∧ r.max ≤ cfg.EprMax ∧ r.max + 1 - r.min = size ∧
        (∀ e ∈ existing, r.max < e.min ∨ e.max < r.min) ∧
        (∀ s, validStart size ⟨cfg.EprMin, cfg.EprMax⟩ existing s → r.min ≤ s)) ∧
    (allocatePorts size cfg inv = .error "PortExhaustionError" →
        ∀ s, ¬ validStart size ⟨cfg.EprMin, cfg.EprMax⟩ existing s) := by
  have hall := allocate_spec size ⟨cfg.EprMin, cfg.EprMax⟩ existing hsz
  have heq : allocatePorts size cfg inv =
      match allocate size ⟨cfg.EprMin, cfg.EprMax⟩ existing with
      | none => .error "PortExhaustionError"
      | some r => .ok r := by
    unfold allocatePorts
    rw [if_neg (by omega : ¬ size = 0), hex]
  constructor
  · intro r hr
    rw [heq] at hr
    cases halo : allocate size ⟨cfg.EprMin, cfg.EprMax⟩ existing with
    | none =>
        rw [halo] at hr
        exact Except.noConfusion hr
    | some r' =>
        rw [halo] at hr
        have hr' : Except.ok (ε := String) r' = .ok r := hr
        obtain rfl := Except.ok.inj hr'
        exact hall.1 r' halo
  · intro hr s
    rw [heq] at hr
    cases halo : allocate size ⟨cfg.EprMin, cfg.EprMax⟩ existing with
    | some r' =>
        rw [halo] at hr
        exact Except.noConfusion hr
    | none => exact hall.2 halo s

/-- Witness for C1, on the spec's example: window `[59000, 59009]`, one
existing room leasing `[59000, 59004]`, request of size 5; the allocation
returns `[59005, 59009]`, which the theorem certifies. -/
theorem allocatePorts_first_fit_witness :
    59000 ≤ 59005 ∧ 59009 ≤ 59009 ∧ 59009 + 1 - 59005 = 5 :=
  have h :=
    (allocatePorts_first_fit 5 sampleCfg [sampleContainer]
        [⟨59000, 59004⟩] (by decide) rfl).1
      ⟨59005, 59009⟩ rfl
  ⟨h.1, h.2.1, h.2.2.1⟩

/-- Inversion of a successful one-container decode: the entry carries the
container's id, the values of the name and url labels, and the
`max - min + 1` of the decoded range. -/
theorem decodeEntry_ok (c : Container) (en : RoomEntry)
    (h : decodeEntry c = .ok en) :
    en.ID = c.ID ∧
    (∃ nm, c.Labels.lookup nameKey = some nm ∧ en.Name = nm) ∧
    (∃ u, c.Labels.lookup urlKey = some u ∧ en.URL = u) ∧
    ∃ epr, getEprFromLabels c.Labels = .ok epr ∧
      en.MaxConnections = epr.max - epr.min + 1 := by
  unfold decodeEntry at h
  cases hn : c.Labels.lookup nameKey with
  | none => rw [hn] at h; exact Except.noConfusion h
  | some nm =>
      rw [hn] at h
      cases hu : c.Labels.lookup urlKey with
      | none => rw [hu] at h; exact Except.noConfusion h
      | some u =>
          rw [hu] at h
          cases hepr : getEprFromLabels c.Labels with
          | error e => rw [hepr] at h; exact Except.noConfusion h
          | ok epr =>
              rw [hepr] at h
              obtain rfl := Except.ok.inj h
              exact ⟨rfl, ⟨nm, rfl, rfl⟩, ⟨u, rfl, rfl⟩, ⟨epr, rfl, rfl⟩⟩

/-- C2: the `List` call is all-or-nothing — if decoding any single
canary-marked workload fails, the whole call returns an error (no partial
list); if every one decodes, the call succeeds with exactly one entry per
room, each entry a decode of its room. -/
theorem list_all_or_nothing (inv : List Container) :
    ((∃ c ∈ listContainers inv, ∃ e, decodeEntry c = .error e) →
        ∃ e', listRooms inv = .error e') ∧
    ((∀ c ∈ listContainers inv, ∃ en, decodeEntry c = .ok en) →
        ∃ es, listRooms inv = .ok es ∧ es.length = (listContainers inv).length ∧
          ∀ c ∈ listContainers inv, ∃ en ∈ es, decodeEntry c = .ok en) := by
  constructor
  · rintro ⟨c, hc, e, he⟩
    exact listRoomsLoop_error_of_mem _ [] c hc e he
  · intro h
    obtain ⟨tail, htl, hlen, hall⟩ := listRoomsLoop_ok_of_all _ [] h
    refine ⟨tail, ?_, hlen, hall⟩
    rw [listRooms]
    simpa using htl

/-- Witness for C2: a corrupt room (unparsable `epr.min`) fails the whole
listing; the healthy inventory lists completely. -/
theorem list_all_or_nothing_witness :
    ∃ e', listRooms [sampleContainer, corruptContainer] = .error e' :=
  (list_all_or_nothing [sampleContainer, corruptContainer]).1
    ⟨corruptContainer,
     show corruptContainer ∈ sampleContainer :: [corruptContainer] from
       List.mem_cons_of_mem _ (List.mem_cons_self _ _),
     "CorruptMetadataError: epr.min unparsable", rfl⟩

/-- C3: every entry of a successful `List` result corresponds to a workload
of the inventory that bears the canary marker label. -/
theorem list_only_canary (inv : List Container) (es : List RoomEntry)
    (h : listRooms inv = .ok es) :
    ∀ en ∈ es, ∃ c ∈ inv, c.ID = en.ID ∧
      c.Labels.lookup canaryKey = some labelCanary := by
  intro en hen
  rcases listRoomsLoop_mem _ [] es h en hen with habs | ⟨c, hc, hdec⟩
  · exact absurd habs (List.not_mem_nil en)
  · have hfil := List.mem_filter.mp hc
    have hcan : c.Labels.lookup canaryKey = some labelCanary := by
      have := hfil.2
      simpa using this
    exact ⟨c, hfil.1, ((decodeEntry_ok c en hdec).1).symm, hcan⟩

/-- Witness for C3: the healthy inventory with an unrelated non-canary
workload; the single listed entry maps back to the canary-marked room. -/
theorem list_only_canary_witness :
    ∃ c ∈ [sampleContainer, alienContainer], c.ID = sampleEntry.ID ∧
      c.Labels.lookup canaryKey = some labelCanary :=
  list_only_canary [sampleContainer, alienContainer] [sampleEntry] rfl
    sampleEntry (List.mem_cons_self _ _)

/-- C4: encoding a room's identity and port range into labels as `Create`
does is a pure function, and decoding the resulting label map as `List`/`Get`
do returns the same name, url and port range. -/
theorem label_roundtrip (cfg : RoomConfig) (roomName : String) (epr : PortRange) :
    (mkLabels cfg roomName epr).lookup nameKey = some roomName ∧
    (mkLabels cfg roomName epr).lookup urlKey = some (mkURL cfg roomName) ∧
    getEprFromLabels (mkLabels cfg roomName epr) = .ok epr :=
  ⟨mkLabels_lookup_name cfg roomName epr, mkLabels_lookup_url cfg roomName epr,
   mkLabels_getEpr cfg roomName epr⟩

/-- C5: the `MaxConnections` reported by `List` for every entry and by `Get`
equals `max - min + 1` of the decoded port range. -/
theorem maxConnections_formula :
    (∀ inv es, listRooms inv = .ok es → ∀ en ∈ es,
        ∃ c epr, c ∈ listContainers inv ∧ getEprFromLabels c.Labels = .ok epr ∧
          en.MaxConnections = epr.max - epr.min + 1) ∧
    (∀ id st s, getRoom id st = .ok s →
        ∃ c epr, inspectContainer id st = .ok c ∧
          getEprFromLabels c.Labels = .ok epr ∧
          s.MaxConnections = epr.max - epr.min + 1) := by
  constructor
  · intro inv es h en hen
    rcases listRoomsLoop_mem _ [] es h en hen with habs | ⟨c, hc, hdec⟩
    · exact absurd habs (List.not_mem_nil en)
    · obtain ⟨_, _, _, epr, hepr, hmc⟩ := decodeEntry_ok c en hdec
      exact ⟨c, epr, hc, hepr, hmc⟩
  · intro id st s h
    unfold getRoom at h
    split at h
    · exact Except.noConfusion h
    · rename_i c hins
      split at h
      · exact Except.noConfusion h
      · rename_i nm hn
        split at h
        · exact Except.noConfusion h
        · rename_i epr hepr
          obtain rfl := Except.ok.inj h
          exact ⟨c, epr, hins, hepr, rfl⟩

/-- Witness for C5: on the concrete healthy room leasing `[59000, 59004]`,
both the listing and a `Get` report `MaxConnections = 5`. -/
theorem maxConnections_formula_witness :
    ∃ c epr, inspectContainer "c1" ⟨[sampleContainer], []⟩ = .ok c ∧
      getEprFromLabels c.Labels = .ok epr ∧
      ({ Name := "room1", MaxConnections := 5, envOptions := [] } :
          RoomSettings).MaxConnections = epr.max - epr.min + 1 :=
  maxConnections_formula.2 "c1" ⟨[sampleContainer], []⟩
    { Name := "room1", MaxConnections := 5, envOptions := [] } rfl

/-! ## Port-binding lemmas (C6) -/

theorem mem_portsOfRange {epr : PortRange} {p : Nat} :
    p ∈ portsOfRange epr ↔ epr.min ≤ p ∧ p ≤ epr.max := by
  unfold portsOfRange
  simp only [List.mem_map, List.mem_range]
  constructor
  · rintro ⟨i, hi, rfl⟩
    omega
  · rintro ⟨h1, h2⟩
    exact ⟨p - epr.min, by omega, by omega⟩

theorem portKey_injective : Function.Injective portKey := by
  intro a b h
  unfold portKey at h
  have hd : (natToDec a ++ "/udp").data = (natToDec b ++ "/udp").data := by rw [h]
  rw [String.data_append, String.data_append] at hd
  exact natToDec_injective (String.ext (List.append_cancel_right hd))

theorem lookup_map_pair {β : Type} (f : Nat → String) (g : Nat → β)
    (hf : Function.Injective f) :
    ∀ (l : List Nat) (p : Nat), p ∈ l →
      (l.map (fun q => (f q, g q))).lookup (f p) = some (g p) := by
  intro l
  induction l with
  | nil =>
      intro p hp
      exact absurd hp (List.not_mem_nil p)
  | cons q t ih =>
      intro p hp
      by_cases hpq : p = q
      · subst hpq
        rw [List.map_cons]
        exact lookup_cons_self _ _ _
      · have hne : f p ≠ f q := fun hh => hpq (hf hh)
        rw [List.map_cons, lookup_cons_ne _ _ hne]
        refine ih p ?_
        rcases List.mem_cons.mp hp with rfl | hmem
        · exact absurd rfl hpq
        · exact hmem

theorem lookup_map_pair_mem {β : Type} (f : Nat → String) (g : Nat → β) :
    ∀ (l : List Nat) (k : String) (b : β),
      (l.map (fun q => (f q, g q))).lookup k = some b → ∃ q ∈ l, f q = k := by
  intro l
  induction l with
  | nil =>
      intro k b h
      exact absurd h (by simp [List.lookup])
  | cons q t ih =>
      intro k b h
      rw [List.map_cons, List.lookup_cons] at h
      cases hb : k == f q with
      | true =>
          exact ⟨q, List.mem_cons_self _ _, (eq_of_beq hb).symm⟩
      | false =>
          rw [hb] at h
          obtain ⟨q', hq', hfq⟩ := ih k b h
          exact ⟨q', List.mem_cons_of_mem _ hq', hfq⟩

/-- C6 counterexample: for the concrete allocated range `[59000, 59001]`,
the port-binding map built by `Create` holds no binding for the control
(frontend) port `8080/udp`, so the claim that the binding map covers the
control port is false; the control port is only exposed, not host-bound. -/
theorem create_bindings_counterexample :
    List.lookup (portKey frontendPort) (mkPortBindings ⟨59000, 59001⟩) = none :=
  rfl

/-- C6 (amended): the port-binding map built by `Create` binds exactly the
ports of the allocated range, each to the identically numbered host port on
`0.0.0.0`; the control (frontend) port is published in the exposed-port set
(together with every range port) but has no host binding of its own. -/
theorem create_bindings_amended (epr : PortRange) (p : Nat)
    (h1 : epr.min ≤ p) (h2 : p ≤ epr.max) :
    (mkPortBindings epr).lookup (portKey p) =
      some [{ HostIP := "0.0.0.0", HostPort := natToDec p }] ∧
    portKey frontendPort ∈ mkExposedPorts epr ∧
    portKey p ∈ mkExposedPorts epr ∧
    (∀ q bs, (mkPortBindings epr).lookup (portKey q) = some bs →
        epr.min ≤ q ∧ q ≤ epr.max) := by
  refine ⟨?_, ?_, ?_, ?_⟩
  · exact lookup_map_pair portKey _ portKey_injective (portsOfRange epr) p
      (mem_portsOfRange.mpr ⟨h1, h2⟩)
  · exact List.mem_cons_self _ _
  · refine List.mem_cons_of_mem _ ?_
    exact List.mem_map_of_mem portKey (mem_portsOfRange.mpr ⟨h1, h2⟩)
  · intro q bs hq
    obtain ⟨q', hq', hfq⟩ := lookup_map_pair_mem portKey _ (portsOfRange epr) _ bs hq
    obtain rfl := portKey_injective hfq
    exact mem_portsOfRange.mp hq'

/-- Witness for the amended C6, at range `[59000, 59001]` and port `59000`. -/
theorem create_bindings_amended_witness :
    (mkPortBindings ⟨59000, 59001⟩).lookup (portKey 59000) =
      some [{ HostIP := "0.0.0.0", HostPort := natToDec 59000 }] ∧
    portKey frontendPort ∈ mkExposedPorts ⟨59000, 59001⟩ ∧
    portKey 59000 ∈ mkExposedPorts ⟨59000, 59001⟩ ∧
    (∀ q bs, (mkPortBindings ⟨59000, 59001⟩).lookup (portKey q) = some bs →
        59000 ≤ q ∧ q ≤ 59001) :=
  create_bindings_amended ⟨59000, 59001⟩ 59000 (by decide) (by decide)

/-- C7: a container successfully created by `Create` carries exactly the
environment contract: the fixed bind-port variable, the external-port-range
variable formatted `MIN-MAX` from the allocated range, the comma-joined
(possibly empty) NAT address hint, followed by all settings-derived
entries. -/
theorem create_env_spec (settings : RoomSettings) (genName : String)
    (cfg : RoomConfig) (beh : EngineBehavior) (st : EngineState) (idr : String)
    (h : (createRoom settings genName cfg beh st).1 = .ok idr) :
    ∃ c epr, c ∈ (createRoom settings genName cfg beh st).2.containers ∧
      c.ID = idr ∧
      allocatePorts settings.MaxConnections cfg st.containers = .ok epr ∧
      c.Env = ["NEKO_BIND=" ++ natToDec frontendPort,
               "NEKO_EPR=" ++ natToDec epr.min ++ "-" ++ natToDec epr.max,
               "NEKO_NAT1TO1=" ++ String.intercalate "," cfg.NAT1To1IPs]
              ++ settings.ToEnv := by
  cases halloc : allocatePorts settings.MaxConnections cfg st.containers with
  | error e =>
      exfalso
      simp only [createRoom, halloc] at h
      exact Except.noConfusion h
  | ok epr =>
      cases hce : beh.createErr with
      | some e =>
          exfalso
          simp only [createRoom, halloc, hce] at h
          exact Except.noConfusion h
      | none =>
          cases hse : beh.startErr with
          | some e =>
              exfalso
              simp only [createRoom, halloc, hce, hse] at h
              exact Except.noConfusion h
          | none =>
              have hid : beh.newID = idr := by
                simp only [createRoom, halloc, hce, hse] at h
                exact Except.ok.inj h
              have hcr : (createRoom settings genName cfg beh st).2.containers =
                  setRunning beh.newID (st.containers ++
                    [{ ID := beh.newID,
                       Labels := mkLabels cfg
                         (if settings.Name = "" then genName else settings.Name) epr,
                       Env := mkEnv settings cfg epr, Image := nekoImage,
                       State := "created", Status := "", Created := beh.now }]) := by
                simp only [createRoom, halloc, hce, hse]
              refine ⟨{ ID := beh.newID,
                        Labels := mkLabels cfg
                          (if settings.Name = "" then genName else settings.Name) epr,
                        Env := mkEnv settings cfg epr, Image := nekoImage,
                        State := "running", Status := "", Created := beh.now },
                      epr, ?_, hid, halloc ▸ rfl, rfl⟩
              rw [hcr, setRunning]
              refine List.mem_map.mpr
                ⟨_, List.mem_append_right _ (List.mem_singleton_self _), ?_⟩
              simp

/-- Witness for C7: a concrete successful creation against an empty
inventory; the created container's environment is the full contract. -/
theorem create_env_spec_witness :
    ∃ c epr,
      c ∈ (createRoom sampleSettings "gen" sampleCfg okBehavior ⟨[], []⟩).2.containers ∧
      c.ID = "new1" ∧
      allocatePorts sampleSettings.MaxConnections sampleCfg [] = .ok epr ∧
      c.Env = ["NEKO_BIND=" ++ natToDec frontendPort,
               "NEKO_EPR=" ++ natToDec epr.min ++ "-" ++ natToDec epr.max,
               "NEKO_NAT1TO1=" ++ String.intercalate "," sampleCfg.NAT1To1IPs]
              ++ sampleSettings.ToEnv :=
  create_env_spec sampleSettings "gen" sampleCfg okBehavior ⟨[], []⟩ "new1" rfl

/-- C8: `Remove`, `Start`, `Stop` and `Restart` verify through
`inspectContainer` that the target is a canary-marked room; when the target
exists but lacks the marker, each returns `NotFoundError` and leaves the
engine state untouched (no engine primitive is invoked). -/
theorem lifecycle_reject_non_canary (id : String) (beh : EngineBehavior)
    (st : EngineState) (c : Container)
    (hfind : st.containers.find? (fun c' => c'.ID == id) = some c)
    (hcan : c.Labels.lookup canaryKey ≠ some labelCanary) :
    removeRoom id beh st = (.error "NotFoundError", st) ∧
    startRoom id beh st = (.error "NotFoundError", st) ∧
    stopRoom id beh st = (.error "NotFoundError", st) ∧
    restartRoom id beh st = (.error "NotFoundError", st) := by
  have hins : inspectContainer id st = .error "NotFoundError" := by
    unfold inspectContainer
    rw [hfind]
    show (if c.Labels.lookup canaryKey = some labelCanary then Except.ok c
      else Except.error "NotFoundError") = Except.error "NotFoundError"
    rw [if_neg hcan]
  refine ⟨?_, ?_, ?_, ?_⟩
  · unfold removeRoom
    rw [hins]
  · unfold startRoom
    rw [hins]
  · unfold stopRoom
    rw [hins]
  · unfold restartRoom
    rw [hins]

/-- Witness for C8: an inventory holding only a non-canary workload; all
four lifecycle operations reject it and leave the state unchanged. -/
theorem lifecycle_reject_non_canary_witness :
    removeRoom "c3" okBehavior ⟨[alienContainer], []⟩ =
      (.error "NotFoundError", ⟨[alienContainer], []⟩) ∧
    startRoom "c3" okBehavior ⟨[alienContainer], []⟩ =
      (.error "NotFoundError", ⟨[alienContainer], []⟩) ∧
    stopRoom "c3" okBehavior ⟨[alienContainer], []⟩ =
      (.error "NotFoundError", ⟨[alienContainer], []⟩) ∧
    restartRoom "c3" okBehavior ⟨[alienContainer], []⟩ =
      (.error "NotFoundError", ⟨[alienContainer], []⟩) :=
  lifecycle_reject_non_canary "c3" okBehavior ⟨[alienContainer], []⟩
    alienContainer rfl (by decide)

/-- C9: the url label records `<scheme>://<domain>/<roomName>/` with scheme
`https` exactly when a certificate resolver is configured, and the
per-router TLS labels (`.tls` flag and `.tls.certresolver` name) are present
in the label map exactly when a certificate resolver is configured. -/
theorem url_scheme_and_tls (cfg : RoomConfig) (roomName : String) (epr : PortRange) :
    (cfg.TraefikCertresolver = "" →
        (mkLabels cfg roomName epr).lookup urlKey =
          some ("http://" ++ cfg.TraefikDomain ++ "/" ++ roomName ++ "/") ∧
        (mkLabels cfg roomName epr).lookup (tlsKey (containerPfx ++ roomName)) = none ∧
        (mkLabels cfg roomName epr).lookup
          (certresolverKey (containerPfx ++ roomName)) = none) ∧
    (cfg.TraefikCertresolver ≠ "" →
        (mkLabels cfg roomName epr).lookup urlKey =
          some ("https://" ++ cfg.TraefikDomain ++ "/" ++ roomName ++ "/") ∧
        (mkLabels cfg roomName epr).lookup (tlsKey (containerPfx ++ roomName)) =
          some "true" ∧
        (mkLabels cfg roomName epr).lookup
          (certresolverKey (containerPfx ++ roomName)) =
          some cfg.TraefikCertresolver) := by
  constructor
  · intro h
    refine ⟨?_, ?_, ?_⟩
    · rw [mkLabels_lookup_url, mkURL, urlProto, if_pos h,
        (by decide : "http" ++ "://" = "http://")]
    · rw [mkLabels_lookup_tls, if_pos h]
    · rw [mkLabels_lookup_certresolver, if_pos h]
  · intro h
    refine ⟨?_, ?_, ?_⟩
    · rw [mkLabels_lookup_url, mkURL, urlProto, if_neg h,
        (by decide : "https" ++ "://" = "https://")]
    · rw [mkLabels_lookup_tls, if_neg h]
    · rw [mkLabels_lookup_certresolver, if_neg h]

/-- Witness for C9, in both configurations (no resolver / resolver `le`). -/
theorem url_scheme_and_tls_witness :
    ((mkLabels sampleCfg "room1" ⟨59000, 59004⟩).lookup urlKey =
        some ("http://" ++ sampleCfg.TraefikDomain ++ "/" ++ "room1" ++ "/") ∧
      (mkLabels sampleCfg "room1" ⟨59000, 59004⟩).lookup
        (tlsKey (containerPfx ++ "room1")) = none ∧
      (mkLabels sampleCfg "room1" ⟨59000, 59004⟩).lookup
        (certresolverKey (containerPfx ++ "room1")) = none) ∧
    ((mkLabels sampleCfgTLS "room1" ⟨59000, 59004⟩).lookup urlKey =
        some ("https://" ++ sampleCfgTLS.TraefikDomain ++ "/" ++ "room1" ++ "/") ∧
      (mkLabels sampleCfgTLS "room1" ⟨59000, 59004⟩).lookup
        (tlsKey (containerPfx ++ "room1")) = some "true" ∧
      (mkLabels sampleCfgTLS "room1" ⟨59000, 59004⟩).lookup
        (certresolverKey (containerPfx ++ "room1")) =
        some sampleCfgTLS.TraefikCertresolver) :=
  ⟨(url_scheme_and_tls sampleCfg "room1" ⟨59000, 59004⟩).1 rfl,
   (url_scheme_and_tls sampleCfgTLS "room1" ⟨59000, 59004⟩).2 (by decide)⟩

/-- C10: when the engine's create succeeds but the subsequent start fails,
`Create` returns the start error while the newly created container — still
canary-marked and still decoding to its allocated lease — remains in the
inventory; only a create and a start were issued to the engine, no removal
or rollback. -/
theorem create_start_failure_no_rollback (settings : RoomSettings)
    (genName : String) (cfg : RoomConfig) (beh : EngineBehavior)
    (st : EngineState) (e : String) (epr : PortRange)
    (hce : beh.createErr = none) (hse : beh.startErr = some e)
    (halloc : allocatePorts settings.MaxConnections cfg st.containers = .ok epr) :
    (createRoom settings genName cfg beh st).1 = .error e ∧
    ∃ c, (createRoom settings genName cfg beh st).2.containers =
        st.containers ++ [c] ∧
      c.ID = beh.newID ∧
      getEprFromLabels c.Labels = .ok epr ∧
      c.Labels.lookup canaryKey = some labelCanary ∧
      (createRoom settings genName cfg beh st).2.events =
        st.events ++
          [EngineEvent.createEv (containerPfx ++
             (if settings.Name = "" then genName else settings.Name)),
           EngineEvent.startEv beh.newID] := by
  have h1 : createRoom settings genName cfg beh st =
      (.error e,
       { containers := st.containers ++
           [{ ID := beh.newID,
              Labels := mkLabels cfg
                (if settings.Name = "" then genName else settings.Name) epr,
              Env := mkEnv settings cfg epr, Image := nekoImage,
              State := "created", Status := "", Created := beh.now }],
         events := (st.events ++
           [EngineEvent.createEv (containerPfx ++
              (if settings.Name = "" then genName else settings.Name))]) ++
           [EngineEvent.startEv beh.newID] }) := by
    simp only [createRoom, halloc, hce, hse]
  refine ⟨by rw [h1], ?_⟩
  refine ⟨{ ID := beh.newID,
            Labels := mkLabels cfg
              (if settings.Name = "" then genName else settings.Name) epr,
            Env := mkEnv settings cfg epr, Image := nekoImage,
            State := "created", Status := "", Created := beh.now },
          by rw [h1], rfl, mkLabels_getEpr _ _ _, mkLabels_lookup_canary _ _ _, ?_⟩
  rw [h1, List.append_assoc]
  rfl

/-- Witness for C10: a concrete run against an empty inventory where the
start call fails; the container stays in the inventory with its lease. -/
theorem create_start_failure_no_rollback_witness :
    (createRoom sampleSettings "gen" sampleCfg
        { okBehavior with startErr := some "transport broke" } ⟨[], []⟩).1 =
      .error "transport broke" ∧
    ∃ c, (createRoom sampleSettings "gen" sampleCfg
        { okBehavior with startErr := some "transport broke" } ⟨[], []⟩).2.containers =
        [] ++ [c] ∧
      c.ID = "new1" ∧
      getEprFromLabels c.Labels = .ok ⟨59000, 59004⟩ ∧
      c.Labels.lookup canaryKey = some labelCanary ∧
      (createRoom sampleSettings "gen" sampleCfg
        { okBehavior with startErr := some "transport broke" } ⟨[], []⟩).2.events =
        [] ++ [EngineEvent.createEv (containerPfx ++
                 (if sampleSettings.Name = "" then "gen" else sampleSettings.Name)),
               EngineEvent.startEv "new1"] :=
  create_start_failure_no_rollback sampleSettings "gen" sampleCfg
    { okBehavior with startErr := some "transport broke" } ⟨[], []⟩
    "transport broke" ⟨59000, 59004⟩ rfl rfl rfl

end NekoRooms
